import Mathlib

/-!
Verification development for the EMIT L2B mineralogy tutorial
(`Working_with_EMIT_L2B_Mineralogy.ipynb`).

The two algorithmic components are
* the weighted aggregator (`mineral_abundance` cell of the notebook), and
* the grid remapper (orthorectification gather; its implementation lives in
  `emit_tools.py`, outside the notebook, so it is modelled from the spec).

Floating-point values are embedded as rationals extended with an explicit
NaN (`F.nan`).  The IEEE behaviours that matter for the code under study are
modelled exactly: NaN propagates through `+` and `*` (in particular
`0 * NaN = NaN`), and `NaN == x` is false.  Rounding is not modelled; the
arithmetic performed by the code is sums and products of small tables, for
which the rational model is the intended semantics.
-/

/-- A floating-point value: either NaN or a (finite) numeric value,
modelled as a rational. -/
inductive F where
  | nan : F
  | val : ℚ → F
deriving DecidableEq, Repr

/-- IEEE-style addition: NaN propagates. -/
def F.add : F → F → F
  | F.val a, F.val b => F.val (a + b)
  | _, _ => F.nan

/-- IEEE-style multiplication: NaN propagates (also `0 * NaN = NaN`). -/
def F.mul : F → F → F
  | F.val a, F.val b => F.val (a * b)
  | _, _ => F.nan

/-- `np.isnan`. -/
def F.isNan : F → Bool
  | F.nan => true
  | F.val _ => false

/-- numpy equality comparison against a number: `NaN == x` is `False`. -/
def F.eqNum : F → ℚ → Bool
  | F.nan, _ => false
  | F.val a, b => decide (a = b)

instance : Add F := ⟨F.add⟩
instance : Mul F := ⟨F.mul⟩

/-- A raster layer over the orthorectified grid, indexed by (row, column). -/
def Layer : Type := ℕ × ℕ → F

/-- One flattened weight-table entry.  The notebook iterates over the
output-category columns (`mineral_names`, outer loop `_m`) and the
constituent rows of `mineral_groupings` (inner loop `_c`); each visited
`(constituent, category)` cell of the csv is one `WRow`:
`group` is the csv `Group` column, `id` the csv `Index` column, `cat` the
category (mineral) column name, and `w` the raw csv weight
(`mineral_groupings[mineral_name][_c]`), which may be NaN or the `-1`
sentinel. -/
structure WRow where
  group : ℕ
  id : ℚ
  cat : String
  w : F
deriving DecidableEq, Repr

/-- The per-group input layers: for each spectral group number, the pair
(`group_{g}_mineral_id` layer, `group_{g}_band_depth` layer). -/
def Groups : Type := ℕ → Layer × Layer

/-- The resolved weight actually multiplied in by the notebook: cell 38
performs `mineral_abundance_ref[np.isnan(...)] = 0` and
`mineral_abundance_ref[mineral_abundance_ref == -1] = 1` before the loop. -/
def resolveW : F → ℚ
  | F.nan => 0
  | F.val q => if q = -1 then 1 else q

/-- The boolean mask `(ds_min[f'group_{group}_mineral_id'].values == Index[_c])`
as a 0/1 float. -/
def idMask (idv : F) (target : ℚ) : F :=
  if idv.eqNum target then F.val 1 else F.val 0

/-- One row's addend
`(id_layer == Index[_c]) * band_depth * mineral_abundance_ref[_c][_m]`
at a single cell.  Note that when the band depth is NaN this is NaN even
where the mask is 0. -/
def rowContrib (layers : Groups) (r : WRow) (p : ℕ × ℕ) : F :=
  idMask ((layers r.group).1 p) r.id * (layers r.group).2 p * F.val (resolveW r.w)

/-- The accumulation loop of the notebook for one output category at one
cell: starting from the zero raster, every table row whose csv weight cell
is non-NaN (`if np.isnan(mineral_groupings[mineral_name][_c]) == False`)
and whose category is `cat` adds its contribution. -/
def accum (layers : Groups) (table : List WRow) (cat : String) (p : ℕ × ℕ) : F :=
  table.foldl
    (fun acc r => if r.cat = cat ∧ ¬ r.w.isNan then acc + rowContrib layers r p else acc)
    (F.val 0)

/-- `mineral_abundance[np.isnan(mineral_abundance)] = 0`. -/
def nanToZero : F → ℚ
  | F.nan => 0
  | F.val q => q

/-- The notebook's full aggregation for output category `cat` at cell `p`:
accumulate all rows, replace NaN accumulations by 0, then set cells where
every category's value is 0 to NaN
(`mineral_abundance[np.all(mineral_abundance == 0, axis=-1),:] = np.nan`).
`cats` is the `mineral_names` list of output categories. -/
def mineral_abundance (cats : List String) (layers : Groups) (table : List WRow)
    (cat : String) (p : ℕ × ℕ) : F :=
  if cats.all (fun c => decide (nanToZero (accum layers table c p) = 0)) then F.nan
  else F.val (nanToZero (accum layers table cat p))

/-- The sum described by claim C1, written from the claim's words: over all
weight-table rows whose category is `cat` and whose id matches the id layer
at `p`, sum `magnitude * w` (raw table weight), as a rational. -/
def claimSum (layers : Groups) (table : List WRow) (cat : String) (p : ℕ × ℕ) : ℚ :=
  ((table.filter
      (fun r => decide (r.cat = cat) && ((layers r.group).1 p).eqNum r.id)).map
    (fun r => nanToZero ((layers r.group).2 p) * nanToZero r.w)).sum

/-! ### Shape-aware aggregation (for the shape-mismatch claim)

The notebook never checks shapes: `mineral_abundance` is allocated with the
shape of `group_1_band_depth`, and each row's update
`mineral_abundance[...,_m] += mask * band_depth * ref` simply lets numpy
raise a `ValueError` when the row's layers cannot be combined with the
output buffer.  We model a raster together with its declared shape and a
sequential runner that, like numpy, fails at the first processed row whose
layer shapes do not match the output grid, returning the accumulator as it
stood at that moment.  (Shape mismatches that numpy silently broadcasts are
outside this model; the modelled case is the non-broadcastable one.) -/

/-- A raster with an explicit shape. -/
structure Ras where
  rH : ℕ
  rW : ℕ
  d : ℕ × ℕ → F

/-- Shaped per-group layers. -/
def GroupsR : Type := ℕ → Ras × Ras

/-- The row's layers are elementwise-compatible with the (H, W) output
buffer. -/
def shapesOk (H W : ℕ) (layers : GroupsR) (r : WRow) : Prop :=
  (layers r.group).1.rH = H ∧ (layers r.group).1.rW = W ∧
    (layers r.group).2.rH = H ∧ (layers r.group).2.rW = W

instance (H W : ℕ) (layers : GroupsR) (r : WRow) : Decidable (shapesOk H W layers r) := by
  unfold shapesOk
  infer_instance

/-- One row's addend on shaped layers. -/
def rowContribR (layers : GroupsR) (r : WRow) (p : ℕ × ℕ) : F :=
  idMask ((layers r.group).1.d p) r.id * (layers r.group).2.d p * F.val (resolveW r.w)

/-- The notebook's accumulation loop for one category on shaped layers,
processed in row order.  Returns `(failed, acc)`: `failed` is true when a
processed row's layers mismatched the output grid (numpy `ValueError`), and
`acc` is the accumulator at the end, or as it stood when the error was
raised. -/
def runChecked (H W : ℕ) (layers : GroupsR) (cat : String) :
    List WRow → (ℕ × ℕ → F) → Bool × (ℕ × ℕ → F)
  | [], acc => (false, acc)
  | r :: rs, acc =>
    if r.cat = cat ∧ ¬ r.w.isNan then
      if shapesOk H W layers r then
        runChecked H W layers cat rs (fun p => acc p + rowContribR layers r p)
      else (true, acc)
    else runChecked H W layers cat rs acc

/-! ### Grid remapper (orthorectification) -/

/-- Modelled from the spec: the Grid Remapper is implemented in
`emit_tools.py` (`ortho_xr`), which is repository code not present under
the notebook source; per spec section 4.1, an output cell whose raw index
pair is non-positive is missing; otherwise the 1-based raw indices are
decoded to 0-based `(r, c)`, which must lie within `[0,R)` and `[0,C)` of
the source grid, out-of-range being treated as missing, not fatal; a valid
in-bounds cell copies `source[r, c]`. -/
def remapCell (R C : ℕ) (source : Layer) (raw : ℤ × ℤ) : F :=
  if raw.1 ≤ 0 ∨ raw.2 ≤ 0 then F.nan
  else if (raw.1 - 1).toNat < R ∧ (raw.2 - 1).toNat < C then
    source ((raw.1 - 1).toNat, (raw.2 - 1).toNat)
  else F.nan

/-- Modelled from the spec: `remap` applies the per-cell gather to every
source layer over the output grid. -/
def remap (R C : ℕ) (sources : List Layer) (indexMap : ℕ × ℕ → ℤ × ℤ) : List Layer :=
  sources.map (fun L => fun p => remapCell R C L (indexMap p))

/-! ### Export (cells 50, 52 and 54 of the notebook) -/

/-- The nodata sentinel used by the export cells. -/
def NODATA : ℚ := -9999

/-- `np.nan_to_num(dat_out.data, nan=-9999)`. -/
def nanToNum (x : F) : ℚ :=
  match x with
  | F.nan => NODATA
  | F.val q => q

/-- `astype(int)`: C-style truncation toward zero. -/
def astypeInt (q : ℚ) : ℤ :=
  if 0 ≤ q then ⌊q⌋ else -⌊-q⌋

/-- Export of a continuous layer (band depth, abundance): the pixel data
after fill-value substitution, paired with the declared nodata value
(`dat_out.rio.write_nodata(-9999, encoded=True)`). -/
def exportCont (layer : Layer) : (ℕ × ℕ → ℚ) × ℚ :=
  (fun p => nanToNum (layer p), NODATA)

/-- Export of the categorical mineral-id layer: fill substitution followed
by the integer cast, paired with the declared nodata value. -/
def exportId (layer : Layer) : (ℕ × ℕ → ℤ) × ℚ :=
  (fun p => astypeInt (nanToNum (layer p)), NODATA)

/-! ### Concrete example inputs used to instantiate the theorems -/

/-- A group whose id layer and band-depth layer are constant. -/
def constPair (i m : ℚ) : Layer × Layer :=
  (fun _ => F.val i, fun _ => F.val m)

/-- A group with constant id layer and all-NaN band depth (e.g. the fill
cells introduced by orthorectification, after cell 24 of the notebook). -/
def nanMagPair (i : ℚ) : Layer × Layer :=
  (fun _ => F.val i, fun _ => F.nan)

/-- Per-group input assigning one pair to spectral group 1 and another to
every other group number. -/
def twoGroups (a b : Layer × Layer) : Groups :=
  fun g => if g = 1 then a else b

/-- A group whose layers carry id 5 and magnitude 3 at cell (0,0) and
id 0 (no match), magnitude 0 elsewhere. -/
def oneCellPair : Layer × Layer :=
  (fun p => if p = (0, 0) then F.val 5 else F.val 0,
   fun p => if p = (0, 0) then F.val 3 else F.val 0)

/-- A constant shaped raster. -/
def constRas (h w : ℕ) (x : ℚ) : Ras :=
  ⟨h, w, fun _ => F.val x⟩

/-- Shaped input: group 1 layers match a 1×1 grid (id 5, depth 3), every
other group's layers are 1×2 (id 5, depth 7) — mismatched with the grid. -/
def mixedShapes : GroupsR :=
  fun g => if g = 1 then (constRas 1 1 5, constRas 1 1 3) else (constRas 1 2 5, constRas 1 2 7)

/-- The all-zero accumulator buffer (`np.zeros`). -/
def zeroAcc : ℕ × ℕ → F := fun _ => F.val 0

/-- A small concrete source layer for the remap examples. -/
def exSrc : Layer := fun p => F.val (p.1 * 10 + p.2)

/-- The identity index map in the 1-based source convention. -/
def identityMap : ℕ × ℕ → ℤ × ℤ := fun p => ((p.1 : ℤ) + 1, (p.2 : ℤ) + 1)

/-- An index map that is invalid everywhere (non-positive first component). -/
def invalidMap : ℕ × ℕ → ℤ × ℤ := fun _ => (0, 3)

/-- NaN-propagating sum of a list. -/
def fsum (l : List F) : F :=
  l.foldr (fun a b => a + b) (F.val 0)

/-! ## Helper lemmas -/

theorem F.val_add_val (a b : ℚ) : F.val a + F.val b = F.val (a + b) := rfl

theorem F.add_nan (a : F) : a + F.nan = F.nan := by
  cases a <;> rfl

theorem F.nan_add (a : F) : F.nan + a = F.nan := by
  cases a <;> rfl

theorem F.add_val_zero (a : F) : a + F.val 0 = a := by
  cases a with
  | nan => rfl
  | val q => show F.val (q + 0) = F.val q; rw [add_zero]

theorem F.addComm (a b : F) : a + b = b + a := by
  cases a <;> cases b <;> simp [F.val_add_val, F.add_nan, F.nan_add]
  exact add_comm _ _

theorem F.addAssoc (a b c : F) : a + b + c = a + (b + c) := by
  cases a <;> cases b <;> cases c <;>
    simp [F.val_add_val, F.add_nan, F.nan_add]
  exact add_assoc _ _ _

theorem F.mul_nan (a : F) : a * F.nan = F.nan := by
  cases a <;> rfl

theorem F.nan_mul (a : F) : F.nan * a = F.nan := by
  cases a <;> rfl

theorem F.val_mul_val (a b : ℚ) : F.val a * F.val b = F.val (a * b) := rfl

/-- Left-distribution of a shared factor over the NaN-propagating sum:
the identity used to merge duplicate weight rows. -/
theorem F.mul_val_add (u : F) (a b : ℚ) :
    u * F.val a + u * F.val b = u * F.val (a + b) := by
  cases u with
  | nan => rfl
  | val x =>
      show F.val (x * a + x * b) = F.val (x * (a + b))
      rw [mul_add]

theorem F.val_zero_add (a : F) : F.val 0 + a = a := by
  cases a with
  | nan => rfl
  | val q => show F.val (0 + q) = F.val q; rw [zero_add]

/-- `fsum` of a cons. -/
theorem fsum_cons (x : F) (l : List F) : fsum (x :: l) = x + fsum l := rfl

/-- `fsum` is invariant under permutation: the NaN-propagating addition is
commutative and associative. -/
theorem fsum_perm {l₁ l₂ : List F} (h : l₁.Perm l₂) : fsum l₁ = fsum l₂ := by
  induction h with
  | nil => rfl
  | cons x h ih => rw [fsum_cons, fsum_cons, ih]
  | swap x y l =>
      rw [fsum_cons, fsum_cons, fsum_cons, fsum_cons, ← F.addAssoc, ← F.addAssoc,
        F.addComm y x]
  | trans h₁ h₂ ih₁ ih₂ => exact ih₁.trans ih₂

/-- The notebook's conditional `foldl` accumulation, rewritten as the
NaN-sum of the filtered and mapped row list. -/
theorem foldl_cond_add (P : WRow → Prop) [DecidablePred P] (g : WRow → F) :
    ∀ (l : List WRow) (a : F),
      l.foldl (fun acc r => if P r then acc + g r else acc) a =
        a + fsum ((l.filter (fun r => decide (P r))).map g) := by
  intro l
  induction l with
  | nil => intro a; simp [fsum, F.add_val_zero]
  | cons r rs ih =>
      intro a
      by_cases hr : P r
      · rw [List.foldl_cons, if_pos hr, ih (a + g r), List.filter_cons,
          if_pos (by simp [hr]), List.map_cons, fsum_cons, F.addAssoc]
      · rw [List.foldl_cons, if_neg hr, ih a, List.filter_cons,
          if_neg (by simp [hr])]

/-- `accum` as a sum over the processed rows. -/
theorem accum_eq_fsum (layers : Groups) (table : List WRow) (cat : String)
    (p : ℕ × ℕ) :
    accum layers table cat p =
      fsum ((table.filter (fun r => decide (r.cat = cat ∧ ¬ r.w.isNan))).map
        (fun r => rowContrib layers r p)) := by
  unfold accum
  rw [foldl_cond_add (fun r => r.cat = cat ∧ ¬ r.w.isNan)
    (fun r => rowContrib layers r p) table (F.val 0), F.val_zero_add]

/-- `accum` is invariant under permutation of the weight-table rows. -/
theorem accum_perm (layers : Groups) {t₁ t₂ : List WRow} (h : t₁.Perm t₂)
    (cat : String) (p : ℕ × ℕ) :
    accum layers t₁ cat p = accum layers t₂ cat p := by
  rw [accum_eq_fsum, accum_eq_fsum]
  exact fsum_perm ((h.filter _).map _)

/-- Auxiliary induction for relating the accumulation loop to `claimSum`:
when every table weight is a non-sentinel number and every referenced band
depth is numeric at `p`, the fold from `F.val a` lands on
`F.val (a + claimSum)`. -/
theorem foldl_eq_claimSum (layers : Groups) (cat : String) (p : ℕ × ℕ) :
    ∀ (table : List WRow) (a : ℚ),
      (∀ r ∈ table, ∃ q : ℚ, r.w = F.val q ∧ q ≠ -1) →
      (∀ r ∈ table, ∃ q : ℚ, (layers r.group).2 p = F.val q) →
      table.foldl
        (fun acc r =>
          if r.cat = cat ∧ ¬ r.w.isNan then acc + rowContrib layers r p else acc)
        (F.val a) = F.val (a + claimSum layers table cat p) := by
  intro table
  induction table with
  | nil => intro a _ _; simp [claimSum]
  | cons r rs ih =>
      intro a h1 h2
      obtain ⟨w, hw, hwne⟩ := h1 r (List.mem_cons_self r rs)
      obtain ⟨m, hm⟩ := h2 r (List.mem_cons_self r rs)
      have h1r : ∀ x ∈ rs, ∃ q : ℚ, x.w = F.val q ∧ q ≠ -1 :=
        fun x hx => h1 x (List.mem_cons_of_mem _ hx)
      have h2r : ∀ x ∈ rs, ∃ q : ℚ, (layers x.group).2 p = F.val q :=
        fun x hx => h2 x (List.mem_cons_of_mem _ hx)
      have hnn : ¬ r.w.isNan = true := by rw [hw]; simp [F.isNan]
      have hres : resolveW r.w = w := by rw [hw]; simp [resolveW, hwne]
      by_cases hc : r.cat = cat
      · cases hmask : ((layers r.group).1 p).eqNum r.id with
        | true =>
            have hcontrib : rowContrib layers r p = F.val (1 * m * w) := by
              rw [rowContrib, idMask, hmask, if_pos rfl, hm, hres,
                F.val_mul_val, F.val_mul_val]
            have hsum : claimSum layers (r :: rs) cat p =
                m * w + claimSum layers rs cat p := by
              unfold claimSum
              rw [List.filter_cons, if_pos (by simp [hc, hmask]),
                List.map_cons, List.sum_cons, hm, hw]
              rfl
            rw [List.foldl_cons, if_pos ⟨hc, hnn⟩, hcontrib, F.val_add_val,
              ih (a + 1 * m * w) h1r h2r, hsum]
            ring_nf
        | false =>
            have hcontrib : rowContrib layers r p = F.val (0 * m * w) := by
              rw [rowContrib, idMask, hmask, if_neg (by simp), hm, hres,
                F.val_mul_val, F.val_mul_val]
            have hsum : claimSum layers (r :: rs) cat p =
                claimSum layers rs cat p := by
              unfold claimSum
              rw [List.filter_cons, if_neg (by simp [hmask])]
            rw [List.foldl_cons, if_pos ⟨hc, hnn⟩, hcontrib, F.val_add_val,
              ih (a + 0 * m * w) h1r h2r, hsum]
            ring_nf
      · have hsum : claimSum layers (r :: rs) cat p =
            claimSum layers rs cat p := by
          unfold claimSum
          rw [List.filter_cons, if_neg (by simp [hc])]
        rw [List.foldl_cons, if_neg (by simp [hc]), ih a h1r h2r, hsum]

/-- Under the numeric hypotheses, the accumulated raster is exactly the
spec's sum. -/
theorem accum_eq_claimSum (layers : Groups) (table : List WRow) (cat : String)
    (p : ℕ × ℕ)
    (h1 : ∀ r ∈ table, ∃ q : ℚ, r.w = F.val q ∧ q ≠ -1)
    (h2 : ∀ r ∈ table, ∃ q : ℚ, (layers r.group).2 p = F.val q) :
    accum layers table cat p = F.val (claimSum layers table cat p) := by
  unfold accum
  rw [foldl_eq_claimSum layers cat p table 0 h1 h2, zero_add]

/-- When every category's cleaned accumulation at a cell is 0, the final
output at that cell is missing, whatever category is read. -/
theorem mineral_abundance_missing (cats : List String) (layers : Groups)
    (table : List WRow) (p : ℕ × ℕ) (cat : String)
    (h : ∀ c ∈ cats, nanToZero (accum layers table c p) = 0) :
    mineral_abundance cats layers table cat p = F.nan := by
  unfold mineral_abundance
  rw [if_pos]
  rw [List.all_eq_true]
  exact fun c hc => decide_eq_true (h c hc)

/-- When some category's cleaned accumulation at a cell is nonzero, the
final output is the cleaned accumulation of the requested category. -/
theorem mineral_abundance_value (cats : List String) (layers : Groups)
    (table : List WRow) (p : ℕ × ℕ) (cat : String)
    (h : ∃ c ∈ cats, nanToZero (accum layers table c p) ≠ 0) :
    mineral_abundance cats layers table cat p =
      F.val (nanToZero (accum layers table cat p)) := by
  obtain ⟨c0, hc0, hne⟩ := h
  unfold mineral_abundance
  rw [if_neg]
  intro hall
  rw [List.all_eq_true] at hall
  exact hne (of_decide_eq_true (hall c0 hc0))

/-- Two weight tables with pointwise-equal accumulations produce identical
final outputs. -/
theorem mineral_abundance_congr (cats : List String) (layers : Groups)
    {t₁ t₂ : List WRow} (h : ∀ c p, accum layers t₁ c p = accum layers t₂ c p)
    (cat : String) (p : ℕ × ℕ) :
    mineral_abundance cats layers t₁ cat p =
      mineral_abundance cats layers t₂ cat p := by
  have hfun : (fun c => decide (nanToZero (accum layers t₁ c p) = 0)) =
      (fun c => decide (nanToZero (accum layers t₂ c p) = 0)) :=
    funext fun c => by rw [h c p]
  unfold mineral_abundance
  rw [hfun, h cat p]

/-! ## Claim C1 -/

/-- C1 as stated is false: with the single weight-table row
(group 1, id 7, category A, weight 2) over a scene whose only id is 5, no
row matches, so the claimed output is the empty sum 0; the aggregator
instead reports the cell as missing (NaN), because the all-categories-zero
rule overwrites the zero raster. -/
theorem C1_counterexample :
    mineral_abundance ["A"] (twoGroups (constPair 5 3) (constPair 5 3))
        [⟨1, 7, "A", F.val 2⟩] "A" (0, 0) ≠
      F.val (claimSum (twoGroups (constPair 5 3) (constPair 5 3))
        [⟨1, 7, "A", F.val 2⟩] "A" (0, 0)) := by
  norm_num [mineral_abundance, accum, claimSum, List.foldl, List.filter,
    List.all, rowContrib, idMask, F.eqNum, resolveW, nanToZero, twoGroups,
    constPair, F.isNan, F.val_add_val, F.val_mul_val]
  exact fun h => F.noConfusion h

/-- C1 (amended): when every weight-table entry is a plain number (neither
NaN nor the -1 sentinel), every band depth referenced by a table row is
numeric at the cell, and some output category's matching sum at the cell is
nonzero (so the missing-data rule does not fire), the aggregator's output
for each category at the cell equals the sum, over all weight-table rows
whose category matches and whose id matches the id layer there, of
magnitude times weight, starting from an all-zero raster. -/
theorem C1_theorem (cats : List String) (layers : Groups) (table : List WRow)
    (cat : String) (p : ℕ × ℕ)
    (h1 : ∀ r ∈ table, ∃ q : ℚ, r.w = F.val q ∧ q ≠ -1)
    (h2 : ∀ r ∈ table, ∃ q : ℚ, (layers r.group).2 p = F.val q)
    (h3 : ∃ c ∈ cats, claimSum layers table c p ≠ 0) :
    mineral_abundance cats layers table cat p =
      F.val (claimSum layers table cat p) := by
  have hacc : ∀ c, accum layers table c p = F.val (claimSum layers table c p) :=
    fun c => accum_eq_claimSum layers table c p h1 h2
  obtain ⟨c0, hc0, hne⟩ := h3
  rw [mineral_abundance_value cats layers table p cat
    ⟨c0, hc0, by rw [hacc c0]; exact hne⟩, hacc cat]
  rfl

/-- Witness instantiating `C1_theorem` at a one-row table that matches the
scene: the output is the matching sum (here 6). -/
theorem C1_witness :
    mineral_abundance ["A"] (twoGroups (constPair 5 3) (constPair 5 3))
        [⟨1, 5, "A", F.val 2⟩] "A" (0, 0) =
      F.val (claimSum (twoGroups (constPair 5 3) (constPair 5 3))
        [⟨1, 5, "A", F.val 2⟩] "A" (0, 0)) := by
  refine C1_theorem ["A"] (twoGroups (constPair 5 3) (constPair 5 3))
    [⟨1, 5, "A", F.val 2⟩] "A" (0, 0) ?_ ?_ ?_
  · intro r hr
    rw [List.mem_singleton] at hr
    subst hr
    exact ⟨2, rfl, by norm_num⟩
  · intro r hr
    refine ⟨3, ?_⟩
    unfold twoGroups constPair
    by_cases hg : r.group = 1 <;> simp [hg]
  · refine ⟨"A", by simp, ?_⟩
    norm_num [claimSum, List.filter, twoGroups, constPair, F.eqNum, nanToZero]

/-! ## Claim C2 -/

/-- C2 as stated is false: with categories A and B, rows
(group 1, id 5, A, weight 1) and (group 2, id 5, B, weight 1), and band
depths 3 (group 1) and -3 (group 2) at a cell with id 5 in both groups, the
cell's total across all output categories is 3 + (-3) = 0, yet category A
reports the value 3 there, not missing: the code tests whether every
category is individually 0, not whether the total is 0. -/
theorem C2_counterexample :
    nanToZero (mineral_abundance ["A", "B"]
        (twoGroups (constPair 5 3) (constPair 5 (-3)))
        [⟨1, 5, "A", F.val 1⟩, ⟨2, 5, "B", F.val 1⟩] "A" (0, 0)) +
      nanToZero (mineral_abundance ["A", "B"]
        (twoGroups (constPair 5 3) (constPair 5 (-3)))
        [⟨1, 5, "A", F.val 1⟩, ⟨2, 5, "B", F.val 1⟩] "B" (0, 0)) = 0 ∧
    mineral_abundance ["A", "B"] (twoGroups (constPair 5 3) (constPair 5 (-3)))
        [⟨1, 5, "A", F.val 1⟩, ⟨2, 5, "B", F.val 1⟩] "A" (0, 0) = F.val 3 := by
  constructor <;>
    norm_num [mineral_abundance, accum, List.foldl, List.all, rowContrib,
      idMask, F.eqNum, resolveW, nanToZero, twoGroups, constPair, F.isNan,
      F.val_add_val, F.val_mul_val,
      show ("B" : String) ≠ "A" from by decide,
      show ("A" : String) ≠ "B" from by decide]

/-- C2 (amended): a cell whose value in EVERY output category is exactly 0
is reported as missing (not as a true zero) in every category; and with the
single-row weight table (group 1, id 5, category A, weight 2), category
list ["A"], and one cell with id 5 and magnitude 3, that cell of
output A equals 6 and every other cell is missing. -/
theorem C2_theorem :
    (∀ (cats : List String) (layers : Groups) (table : List WRow) (p : ℕ × ℕ)
        (cat : String),
        (∀ c ∈ cats, nanToZero (accum layers table c p) = 0) →
        mineral_abundance cats layers table cat p = F.nan) ∧
    (∀ p : ℕ × ℕ,
        mineral_abundance ["A"] (twoGroups oneCellPair oneCellPair)
            [⟨1, 5, "A", F.val 2⟩] "A" p =
          if p = (0, 0) then F.val 6 else F.nan) := by
  constructor
  · exact fun cats layers table p cat h =>
      mineral_abundance_missing cats layers table p cat h
  · intro p
    by_cases hp : p = (0, 0)
    · subst hp
      rw [if_pos rfl]
      norm_num [mineral_abundance, accum, List.foldl, List.all, rowContrib,
        idMask, F.eqNum, resolveW, nanToZero, twoGroups, oneCellPair, F.isNan,
        F.val_add_val, F.val_mul_val]
    · rw [if_neg hp]
      obtain ⟨i, j⟩ := p
      rw [Prod.mk.injEq] at hp
      norm_num [mineral_abundance, accum, List.foldl, List.all, rowContrib,
        idMask, F.eqNum, resolveW, nanToZero, twoGroups, oneCellPair, F.isNan,
        F.val_add_val, F.val_mul_val, Prod.mk.injEq, hp]

/-- Witness instantiating `C2_theorem`: the empty table accumulates 0 in
every category, so the cell is missing; and the concrete single-row example
is missing away from the populated cell. -/
theorem C2_witness :
    mineral_abundance ["A"] (twoGroups oneCellPair oneCellPair) [] "A" (0, 0) =
        F.nan ∧
      mineral_abundance ["A"] (twoGroups oneCellPair oneCellPair)
        [⟨1, 5, "A", F.val 2⟩] "A" (0, 1) = F.nan := by
  constructor
  · refine C2_theorem.1 ["A"] (twoGroups oneCellPair oneCellPair) [] (0, 0) "A" ?_
    intro c _
    rfl
  · have h := C2_theorem.2 (0, 1)
    rw [if_neg (by simp)] at h
    exact h

/-! ## Claim C3 -/

/-- Replacing a weight-table row's sentinel weight -1 by 1 leaves the
accumulation unchanged: the notebook resolves -1 to 1 before multiplying. -/
theorem accum_sentinel (layers : Groups) (t₁ t₂ : List WRow) (g : ℕ) (i : ℚ)
    (c : String) (cat : String) (p : ℕ × ℕ) :
    accum layers (t₁ ++ ⟨g, i, c, F.val (-1)⟩ :: t₂) cat p =
      accum layers (t₁ ++ ⟨g, i, c, F.val 1⟩ :: t₂) cat p := by
  unfold accum
  rw [List.foldl_append, List.foldl_append, List.foldl_cons, List.foldl_cons]
  congr 1

/-- Dropping a weight-table row whose weight is NaN leaves the accumulation
unchanged: the notebook's `isnan` test skips such rows. -/
theorem accum_nanrow (layers : Groups) (t₁ t₂ : List WRow) (g : ℕ) (i : ℚ)
    (c : String) (cat : String) (p : ℕ × ℕ) :
    accum layers (t₁ ++ ⟨g, i, c, F.nan⟩ :: t₂) cat p =
      accum layers (t₁ ++ t₂) cat p := by
  unfold accum
  rw [List.foldl_append, List.foldl_append, List.foldl_cons,
    if_neg (by simp [F.isNan])]

/-- C3: a weight-table entry holding the sentinel -1 behaves exactly as
weight 1 (full contribution) — concretely, weight -1 with magnitude 4
yields 4 at the cell — and an entry holding NaN behaves exactly as if the
row were absent (no contribution). -/
theorem C3_theorem :
    (∀ (cats : List String) (layers : Groups) (t₁ t₂ : List WRow) (g : ℕ)
        (i : ℚ) (c cat : String) (p : ℕ × ℕ),
        mineral_abundance cats layers (t₁ ++ ⟨g, i, c, F.val (-1)⟩ :: t₂) cat p =
          mineral_abundance cats layers (t₁ ++ ⟨g, i, c, F.val 1⟩ :: t₂) cat p) ∧
    (∀ (cats : List String) (layers : Groups) (t₁ t₂ : List WRow) (g : ℕ)
        (i : ℚ) (c cat : String) (p : ℕ × ℕ),
        mineral_abundance cats layers (t₁ ++ ⟨g, i, c, F.nan⟩ :: t₂) cat p =
          mineral_abundance cats layers (t₁ ++ t₂) cat p) ∧
    mineral_abundance ["A"] (twoGroups (constPair 5 4) (constPair 5 4))
        [⟨1, 5, "A", F.val (-1)⟩] "A" (0, 0) = F.val 4 := by
  refine ⟨?_, ?_, ?_⟩
  · intro cats layers t₁ t₂ g i c cat p
    exact mineral_abundance_congr cats layers
      (fun c' p' => accum_sentinel layers t₁ t₂ g i c c' p') cat p
  · intro cats layers t₁ t₂ g i c cat p
    exact mineral_abundance_congr cats layers
      (fun c' p' => accum_nanrow layers t₁ t₂ g i c c' p') cat p
  · norm_num [mineral_abundance, accum, List.foldl, List.all, rowContrib,
      idMask, F.eqNum, resolveW, nanToZero, twoGroups, constPair, F.isNan,
      F.val_add_val, F.val_mul_val]

/-! ## Claim C4 -/

/-- Two adjacent duplicate rows for the same (group, id, category) with
non-negative numeric weights accumulate exactly as the single row carrying
the sum of the weights. -/
theorem accum_dup (layers : Groups) (t : List WRow) (g : ℕ) (i : ℚ)
    (c : String) (w₁ w₂ : ℚ) (h₁ : 0 ≤ w₁) (h₂ : 0 ≤ w₂) (cat : String)
    (p : ℕ × ℕ) :
    accum layers (t ++ [⟨g, i, c, F.val w₁⟩, ⟨g, i, c, F.val w₂⟩]) cat p =
      accum layers (t ++ [⟨g, i, c, F.val (w₁ + w₂)⟩]) cat p := by
  have e₁ : resolveW (F.val w₁) = w₁ := by
    rw [resolveW, if_neg (by intro h; rw [h] at h₁; norm_num at h₁)]
  have e₂ : resolveW (F.val w₂) = w₂ := by
    rw [resolveW, if_neg (by intro h; rw [h] at h₂; norm_num at h₂)]
  have e₃ : resolveW (F.val (w₁ + w₂)) = w₁ + w₂ := by
    rw [resolveW, if_neg (by intro h; linarith)]
  unfold accum
  rw [List.foldl_append, List.foldl_append, List.foldl_cons, List.foldl_cons,
    List.foldl_cons, List.foldl_nil, List.foldl_nil]
  by_cases hc : c = cat
  · rw [if_pos ⟨hc, by simp [F.isNan]⟩, if_pos ⟨hc, by simp [F.isNan]⟩,
      if_pos ⟨hc, by simp [F.isNan]⟩]
    unfold rowContrib
    rw [e₁, e₂, e₃]
    rw [F.addAssoc, F.mul_val_add]
  · rw [if_neg (fun h => hc h.1), if_neg (fun h => hc h.1),
      if_neg (fun h => hc h.1)]

/-- C4: the aggregator's result is invariant under permutation of the
weight-table rows, and duplicate rows for the same (group, id, category)
with non-negative weights sum their weights: two rows of weight 1 behave as
one row of weight 2. -/
theorem C4_theorem :
    (∀ (cats : List String) (layers : Groups) (t₁ t₂ : List WRow),
        t₁.Perm t₂ → ∀ (cat : String) (p : ℕ × ℕ),
        mineral_abundance cats layers t₁ cat p =
          mineral_abundance cats layers t₂ cat p) ∧
    (∀ (cats : List String) (layers : Groups) (t : List WRow) (g : ℕ) (i : ℚ)
        (c : String) (w₁ w₂ : ℚ), 0 ≤ w₁ → 0 ≤ w₂ →
        ∀ (cat : String) (p : ℕ × ℕ),
        mineral_abundance cats layers
            (t ++ [⟨g, i, c, F.val w₁⟩, ⟨g, i, c, F.val w₂⟩]) cat p =
          mineral_abundance cats layers (t ++ [⟨g, i, c, F.val (w₁ + w₂)⟩]) cat p) := by
  constructor
  · intro cats layers t₁ t₂ h cat p
    exact mineral_abundance_congr cats layers
      (fun c' p' => accum_perm layers h c' p') cat p
  · intro cats layers t g i c w₁ w₂ h₁ h₂ cat p
    exact mineral_abundance_congr cats layers
      (fun c' p' => accum_dup layers t g i c w₁ w₂ h₁ h₂ c' p') cat p

/-- Witness instantiating `C4_theorem`: swapping the two rows of a concrete
table leaves the output unchanged, and two duplicate weight-1 rows equal
the single weight-(1+1) row. -/
theorem C4_witness :
    ([⟨1, 5, "A", F.val 1⟩, ⟨2, 5, "B", F.val 1⟩] : List WRow).Perm
        [⟨2, 5, "B", F.val 1⟩, ⟨1, 5, "A", F.val 1⟩] ∧
    (0 : ℚ) ≤ 1 ∧
    mineral_abundance ["A", "B"] (twoGroups (constPair 5 3) (constPair 5 3))
        [⟨1, 5, "A", F.val 1⟩, ⟨2, 5, "B", F.val 1⟩] "A" (0, 0) =
      mineral_abundance ["A", "B"] (twoGroups (constPair 5 3) (constPair 5 3))
        [⟨2, 5, "B", F.val 1⟩, ⟨1, 5, "A", F.val 1⟩] "A" (0, 0) ∧
    mineral_abundance ["A"] (twoGroups (constPair 5 3) (constPair 5 3))
        [⟨1, 5, "A", F.val 1⟩, ⟨1, 5, "A", F.val 1⟩] "A" (0, 0) =
      mineral_abundance ["A"] (twoGroups (constPair 5 3) (constPair 5 3))
        [⟨1, 5, "A", F.val (1 + 1)⟩] "A" (0, 0) := by
  refine ⟨List.Perm.swap _ _ _, by norm_num, ?_, ?_⟩
  · exact C4_theorem.1 ["A", "B"] (twoGroups (constPair 5 3) (constPair 5 3))
      _ _ (List.Perm.swap _ _ _) "A" (0, 0)
  · exact C4_theorem.2 ["A"] (twoGroups (constPair 5 3) (constPair 5 3))
      [] 1 5 "A" 1 1 (by norm_num) (by norm_num) "A" (0, 0)

/-! ## Claim C5 -/

/-- C5 (spec-modelled): when the index map is the identity (in the 1-based
source convention) and the cell lies within the source bounds, every
remapped layer reproduces the source layer at that cell — `remap` is a
direct gather. -/
theorem C5_theorem (R C : ℕ) (sources : List Layer) (imap : ℕ × ℕ → ℤ × ℤ)
    (hid : ∀ p : ℕ × ℕ, imap p = ((p.1 : ℤ) + 1, (p.2 : ℤ) + 1))
    (k : ℕ) (hk : k < sources.length)
    (hk' : k < (remap R C sources imap).length) (i j : ℕ)
    (hi : i < R) (hj : j < C) :
    (remap R C sources imap).get ⟨k, hk'⟩ (i, j) = (sources.get ⟨k, hk⟩) (i, j) := by
  have h1 : ((i : ℤ) + 1 - 1).toNat = i := by omega
  have h2 : ((j : ℤ) + 1 - 1).toNat = j := by omega
  rw [List.get_eq_getElem, List.get_eq_getElem]
  unfold remap
  rw [List.getElem_map, hid (i, j)]
  unfold remapCell
  rw [if_neg (by omega), if_pos (by omega), h1, h2]

/-- Witness instantiating `C5_theorem` on a concrete 2×3 source layer and
the identity index map at cell (1, 2). -/
theorem C5_witness :
    (∀ p : ℕ × ℕ, identityMap p = ((p.1 : ℤ) + 1, (p.2 : ℤ) + 1)) ∧
    (1 < 2 ∧ 2 < 3) ∧
    (remap 2 3 [exSrc] identityMap).get ⟨0, by decide⟩ (1, 2) = exSrc (1, 2) := by
  refine ⟨fun p => rfl, by decide, ?_⟩
  exact C5_theorem 2 3 [exSrc] identityMap (fun p => rfl) 0 (by decide)
    (by decide) 1 2 (by decide) (by decide)

/-! ## Claim C6 -/

/-- C6 (spec-modelled): at every index-map cell whose raw value is invalid
(non-positive) or whose decoded 0-based indices fall outside the source
bounds, every output layer is missing, regardless of the source content;
`remap` is total, so no fatal error can occur. -/
theorem C6_theorem (R C : ℕ) (sources : List Layer) (imap : ℕ × ℕ → ℤ × ℤ)
    (i j : ℕ)
    (hinv : (imap (i, j)).1 ≤ 0 ∨ (imap (i, j)).2 ≤ 0 ∨
      ¬ (((imap (i, j)).1 - 1).toNat < R ∧ ((imap (i, j)).2 - 1).toNat < C)) :
    ∀ M ∈ remap R C sources imap, M (i, j) = F.nan := by
  intro M hM
  unfold remap at hM
  rw [List.mem_map] at hM
  obtain ⟨L, hL, rfl⟩ := hM
  show remapCell R C L (imap (i, j)) = F.nan
  unfold remapCell
  rcases hinv with h | h | h
  · rw [if_pos (Or.inl h)]
  · rw [if_pos (Or.inr h)]
  · by_cases h0 : (imap (i, j)).1 ≤ 0 ∨ (imap (i, j)).2 ≤ 0
    · rw [if_pos h0]
    · rw [if_neg h0, if_neg h]

/-- Witness instantiating `C6_theorem` on a concrete invalid index map:
the remapped layer is missing at the invalid cell although the source holds
data everywhere. -/
theorem C6_witness :
    ((invalidMap (0, 0)).1 ≤ 0 ∨ (invalidMap (0, 0)).2 ≤ 0 ∨
      ¬ (((invalidMap (0, 0)).1 - 1).toNat < 2 ∧
        ((invalidMap (0, 0)).2 - 1).toNat < 2)) ∧
    (fun p => remapCell 2 2 exSrc (invalidMap p)) (0, 0) = F.nan := by
  refine ⟨by decide, ?_⟩
  exact C6_theorem 2 2 [exSrc] invalidMap 0 0 (by decide) _
    (List.mem_singleton.mpr rfl)

/-! ## Claim C7 -/

/-- C7 as stated is false: over a 1×1 output grid, with group 1's layers
matching the grid and group 2's layers 1×2 (a non-broadcastable mismatch),
the table [(1, 5, A, 2), (2, 5, A, 1)] does fail — but only when the second
row is reached, after the first row has already been accumulated: at the
moment of failure the accumulator already holds 6 at the cell, so the
failure is not reported before computation begins and partial results
exist. -/
theorem C7_counterexample :
    (runChecked 1 1 mixedShapes "A"
        [⟨1, 5, "A", F.val 2⟩, ⟨2, 5, "A", F.val 1⟩] zeroAcc).1 = true ∧
    (runChecked 1 1 mixedShapes "A"
        [⟨1, 5, "A", F.val 2⟩, ⟨2, 5, "A", F.val 1⟩] zeroAcc).2 (0, 0) =
      F.val 6 := by
  constructor <;>
    norm_num [runChecked, shapesOk, mixedShapes, constRas, rowContribR,
      idMask, F.eqNum, resolveW, zeroAcc, F.val_add_val, F.val_mul_val,
      F.isNan]

/-- C7 (amended): a shape mismatch between a processed weight-table row's
layers and the output grid is always fatal — the run reports failure — but
the failure occurs at the first offending row, after the rows before it
have already been accumulated, not before any computation begins. -/
theorem C7_theorem (H W : ℕ) (layers : GroupsR) (cat : String) :
    ∀ (table : List WRow) (acc : ℕ × ℕ → F),
      (∃ r ∈ table, (r.cat = cat ∧ ¬ r.w.isNan) ∧ ¬ shapesOk H W layers r) →
      (runChecked H W layers cat table acc).1 = true := by
  intro table
  induction table with
  | nil =>
      intro acc h
      obtain ⟨r, hr, _⟩ := h
      exact absurd hr (List.not_mem_nil r)
  | cons r rs ih =>
      intro acc h
      obtain ⟨x, hx, hxp, hxs⟩ := h
      show (if r.cat = cat ∧ ¬ r.w.isNan then
          if shapesOk H W layers r then
            runChecked H W layers cat rs (fun p => acc p + rowContribR layers r p)
          else (true, acc)
        else runChecked H W layers cat rs acc).1 = true
      by_cases hproc : r.cat = cat ∧ ¬ r.w.isNan
      · rw [if_pos hproc]
        by_cases hs : shapesOk H W layers r
        · rw [if_pos hs]
          apply ih
          rcases List.mem_cons.mp hx with hxr | hxrs
          · subst hxr; exact absurd hs hxs
          · exact ⟨x, hxrs, hxp, hxs⟩
        · rw [if_neg hs]
      · rw [if_neg hproc]
        apply ih
        rcases List.mem_cons.mp hx with hxr | hxrs
        · subst hxr; exact absurd hxp hproc
        · exact ⟨x, hxrs, hxp, hxs⟩

/-- Witness instantiating `C7_theorem` on the concrete mismatched input:
the run fails. -/
theorem C7_witness :
    (∃ r ∈ ([⟨1, 5, "A", F.val 2⟩, ⟨2, 5, "A", F.val 1⟩] : List WRow),
        (r.cat = "A" ∧ ¬ r.w.isNan) ∧ ¬ shapesOk 1 1 mixedShapes r) ∧
    (runChecked 1 1 mixedShapes "A"
        [⟨1, 5, "A", F.val 2⟩, ⟨2, 5, "A", F.val 1⟩] zeroAcc).1 = true := by
  have hx : ¬ shapesOk 1 1 mixedShapes ⟨2, 5, "A", F.val 1⟩ := by
    norm_num [shapesOk, mixedShapes, constRas]
  refine ⟨⟨⟨2, 5, "A", F.val 1⟩, by simp, ⟨rfl, by simp [F.isNan]⟩, hx⟩, ?_⟩
  exact C7_theorem 1 1 mixedShapes "A" _ zeroAcc
    ⟨⟨2, 5, "A", F.val 1⟩, by simp, ⟨rfl, by simp [F.isNan]⟩, hx⟩

/-! ## Claim C8 -/

/-- C8: NaN accumulations are replaced by 0 before the
all-categories-zero cells are marked missing.  First conjunct: a category
whose accumulation at a cell is NaN reads back as the true value 0 whenever
some other category keeps the cell alive — the replacement is observable in
the output.  Second conjunct: when every category's accumulation at the
cell is NaN, the cell is missing in every category — the missing-data rule
sees the cleaned zeros, which is exactly the claimed ordering (masking
applied to the NaN-cleaned raster). -/
theorem C8_theorem :
    (∀ (cats : List String) (layers : Groups) (table : List WRow)
        (cat : String) (p : ℕ × ℕ),
        accum layers table cat p = F.nan →
        (∃ c ∈ cats, nanToZero (accum layers table c p) ≠ 0) →
        mineral_abundance cats layers table cat p = F.val 0) ∧
    (∀ (cats : List String) (layers : Groups) (table : List WRow) (p : ℕ × ℕ),
        (∀ c ∈ cats, accum layers table c p = F.nan) →
        ∀ cat, mineral_abundance cats layers table cat p = F.nan) := by
  constructor
  · intro cats layers table cat p hnan hex
    rw [mineral_abundance_value cats layers table p cat hex, hnan]
    rfl
  · intro cats layers table p h cat
    exact mineral_abundance_missing cats layers table p cat
      (fun c hc => by rw [h c hc]; rfl)

/-- Witness instantiating `C8_theorem`: with group 1's band depth NaN and
group 2's numeric, category A (fed by group 1) reads 0 while category B
keeps the cell alive; and with both groups NaN every category is missing. -/
theorem C8_witness :
    mineral_abundance ["A", "B"] (twoGroups (nanMagPair 5) (constPair 5 2))
        [⟨1, 5, "A", F.val 1⟩, ⟨2, 5, "B", F.val 1⟩] "A" (0, 0) = F.val 0 ∧
    mineral_abundance ["A"] (twoGroups (nanMagPair 5) (nanMagPair 5))
        [⟨1, 5, "A", F.val 1⟩] "A" (0, 0) = F.nan := by
  constructor
  · refine C8_theorem.1 ["A", "B"] _ _ "A" (0, 0) ?_ ?_
    · norm_num [accum, List.foldl, rowContrib, idMask, F.eqNum, resolveW,
        twoGroups, nanMagPair, constPair, F.isNan, F.val_add_val,
        F.val_mul_val, F.mul_nan, F.nan_mul, F.add_nan, F.nan_add,
        show ("B" : String) ≠ "A" from by decide]
    · refine ⟨"B", by simp, ?_⟩
      norm_num [accum, List.foldl, rowContrib, idMask, F.eqNum, resolveW,
        nanToZero, twoGroups, nanMagPair, constPair, F.isNan, F.val_add_val,
        F.val_mul_val, F.mul_nan, F.nan_mul, F.add_nan, F.nan_add,
        show ("A" : String) ≠ "B" from by decide]
  · refine C8_theorem.2 ["A"] _ _ (0, 0) ?_ "A"
    intro c hc
    rw [List.mem_singleton] at hc
    subst hc
    norm_num [accum, List.foldl, rowContrib, idMask, F.eqNum, resolveW,
      twoGroups, nanMagPair, F.isNan, F.val_add_val, F.val_mul_val,
      F.mul_nan, F.nan_mul, F.add_nan, F.nan_add]

/-! ## Claim C9 -/

/-- C9: every exported layer substitutes the sentinel -9999 for every
missing (NaN) cell and declares -9999 as the nodata value; numeric cells
are exported unchanged; and the categorical mineral-id layer is cast to
integer, faithfully on integer-valued data, with NaN again becoming
-9999. -/
theorem C9_theorem :
    (∀ (L : Layer) (p : ℕ × ℕ), L p = F.nan → (exportCont L).1 p = -9999) ∧
    (∀ L : Layer, (exportCont L).2 = -9999) ∧
    (∀ (L : Layer) (p : ℕ × ℕ) (q : ℚ), L p = F.val q → (exportCont L).1 p = q) ∧
    (∀ (L : Layer) (p : ℕ × ℕ), L p = F.nan → (exportId L).1 p = -9999) ∧
    (∀ L : Layer, (exportId L).2 = -9999) ∧
    (∀ (L : Layer) (p : ℕ × ℕ) (n : ℤ), L p = F.val (n : ℚ) →
      (exportId L).1 p = n) := by
  refine ⟨?_, fun L => rfl, ?_, ?_, fun L => rfl, ?_⟩
  · intro L p h
    show nanToNum (L p) = -9999
    rw [h]
    rfl
  · intro L p q h
    show nanToNum (L p) = q
    rw [h]
    rfl
  · intro L p h
    show astypeInt (nanToNum (L p)) = -9999
    rw [h]
    show astypeInt NODATA = -9999
    norm_num [astypeInt, NODATA]
  · intro L p n h
    show astypeInt (nanToNum (L p)) = n
    rw [h]
    show astypeInt ((n : ℚ)) = n
    unfold astypeInt
    by_cases hn : (0 : ℚ) ≤ (n : ℚ)
    · rw [if_pos hn, Int.floor_intCast]
    · rw [if_neg hn]
      have hcast : (-(n : ℚ)) = (((-n : ℤ)) : ℚ) := by push_cast; ring
      rw [hcast, Int.floor_intCast]
      omega

/-- Witness instantiating `C9_theorem` on an all-NaN layer and a constant
numeric layer. -/
theorem C9_witness :
    ((fun _ => F.nan : Layer) (0, 0) = F.nan) ∧
    (exportCont (fun _ => F.nan)).1 (0, 0) = -9999 ∧
    (exportCont (fun _ => F.nan)).2 = -9999 ∧
    (exportCont (fun _ => F.val 7)).1 (0, 0) = 7 ∧
    (exportId (fun _ => F.nan)).1 (0, 0) = -9999 ∧
    (exportId (fun _ => F.val 7)).1 (0, 0) = 7 := by
  refine ⟨rfl, C9_theorem.1 _ (0, 0) rfl, C9_theorem.2.1 _,
    C9_theorem.2.2.1 _ (0, 0) 7 rfl, C9_theorem.2.2.2.1 _ (0, 0) rfl,
    C9_theorem.2.2.2.2.2 _ (0, 0) 7 ?_⟩
  norm_num

/-! ## Claim C10 -/

/-- When the band depth at `p` is NaN in every group, every processed row's
contribution at `p` is NaN (the 0/1 mask times NaN is NaN), so the
accumulation is either the initial 0 (no row processed) or NaN, and in both
cases cleans to 0. -/
theorem foldl_nanmag (layers : Groups) (cat : String) (p : ℕ × ℕ)
    (hmag : ∀ g, (layers g).2 p = F.nan) :
    ∀ (table : List WRow) (a : F), (a = F.val 0 ∨ a = F.nan) →
      (table.foldl (fun acc r =>
          if r.cat = cat ∧ ¬ r.w.isNan then acc + rowContrib layers r p else acc)
        a = F.val 0 ∨
       table.foldl (fun acc r =>
          if r.cat = cat ∧ ¬ r.w.isNan then acc + rowContrib layers r p else acc)
        a = F.nan) := by
  intro table
  induction table with
  | nil => intro a ha; exact ha
  | cons r rs ih =>
      intro a ha
      rw [List.foldl_cons]
      by_cases hproc : r.cat = cat ∧ ¬ r.w.isNan
      · rw [if_pos hproc]
        apply ih
        right
        have hr : rowContrib layers r p = F.nan := by
          rw [rowContrib, hmag r.group, F.mul_nan, F.nan_mul]
        rw [hr, F.add_nan]
      · rw [if_neg hproc]
        exact ih a ha

/-- All-NaN band depths at a cell clean to 0 in every category. -/
theorem accum_nanmag (layers : Groups) (table : List WRow) (cat : String)
    (p : ℕ × ℕ) (hmag : ∀ g, (layers g).2 p = F.nan) :
    nanToZero (accum layers table cat p) = 0 := by
  unfold accum
  rcases foldl_nanmag layers cat p hmag table (F.val 0) (Or.inl rfl) with h | h <;>
    rw [h] <;> rfl

/-- C10: a cell whose band depth is NaN in every spectral group (e.g. an
orthorectification fill cell) is reported missing in every output category:
each row's contribution there is NaN, the NaN cleanup turns every category
to 0, and the all-categories-zero rule marks the cell missing. -/
theorem C10_theorem (cats : List String) (layers : Groups) (table : List WRow)
    (p : ℕ × ℕ) (hmag : ∀ g, (layers g).2 p = F.nan) (cat : String) :
    mineral_abundance cats layers table cat p = F.nan :=
  mineral_abundance_missing cats layers table p cat
    (fun c _ => accum_nanmag layers table c p hmag)

/-- Witness instantiating `C10_theorem` on layers whose band depths are NaN
everywhere. -/
theorem C10_witness :
    (∀ g : ℕ, ((twoGroups (nanMagPair 5) (nanMagPair 7)) g).2 (0, 0) = F.nan) ∧
    mineral_abundance ["A"] (twoGroups (nanMagPair 5) (nanMagPair 7))
        [⟨1, 5, "A", F.val 1⟩] "A" (0, 0) = F.nan := by
  have hmag : ∀ g : ℕ,
      ((twoGroups (nanMagPair 5) (nanMagPair 7)) g).2 (0, 0) = F.nan := by
    intro g
    unfold twoGroups nanMagPair
    by_cases hg : g = 1 <;> simp [hg]
  exact ⟨hmag, C10_theorem ["A"] _ _ (0, 0) hmag "A"⟩
